import Mathlib

/-
Verification development for the rust_jvm repository (Will Hawkins, 2019).

Shallow embedding of the three source files under src/src/jvm/:
  - class.rs  : the class-file reader (`Class::load`) and name lookup (`Class::get_name`);
  - object.rs : heap objects (`JvmObject`), field tables, `instantiate`, `is_type_of`;
  - mod.rs    : the `Jvm` entry point (`Jvm::new`, `Jvm::run`).

Bytes are modelled as `List Nat` (each element is a `u8`, so below 256; the
big-endian recombinations `(b0 as u16) << 8 | b1` etc. are embedded as
`b0 * 256 + b1`, which coincides with the source on u8 inputs since the
shifted bit ranges are disjoint).  Rust panics (out-of-bounds `Vec` indexing)
are embedded as the distinguished outcome `ParseFault.panic` of an `Except`
result; the source has no recoverable error channel in `Class::load`.

The modules the source files import (constantpool.rs, constant.rs, field.rs,
method.rs, attribute.rs, typevalues.rs, array.rs, jvmthread.rs,
methodarea.rs, error.rs) are not part of the source under study; every
definition standing in for one of them is marked `Modelled from the spec:`
and follows the specification's description of that component.
-/

namespace RustJvm

/-- Outcomes of running the reader: `panic` embeds a Rust panic caused by
out-of-bounds byte indexing (the reader indexes `c.bytes[offset]` directly),
`badTag` embeds a failure on an unrecognized constant-pool tag. -/
inductive ParseFault where
  | panic
  | badTag (tag : Nat)
deriving DecidableEq

/-- Big-endian recombination of two bytes, `(b0 as u16) << 8 | b1`. -/
def be16 (b0 b1 : Nat) : Nat := b0 * 256 + b1

/-- Big-endian recombination of four bytes, as in the `magic` read. -/
def be32 (b0 b1 b2 b3 : Nat) : Nat :=
  b0 * 16777216 + b1 * 65536 + b2 * 256 + b3

/-- Indexing into the byte vector: the element when the index is in
bounds, `none` (a panic of the Rust `Vec` indexing) otherwise. -/
def byteAt : List Nat → Nat → Option Nat
  | [], _ => none
  | b :: _, 0 => some b
  | _ :: rest, i + 1 => byteAt rest i

/-- Read one byte at index `i`; out of bounds is a panic (Rust `Vec` indexing). -/
def readU8 (bytes : List Nat) (i : Nat) : Except ParseFault Nat :=
  match byteAt bytes i with
  | some b => .ok b
  | none => .error .panic

/-- Read a big-endian u16 at index `i` (two consecutive byte indexings). -/
def readU16 (bytes : List Nat) (i : Nat) : Except ParseFault Nat :=
  match byteAt bytes i, byteAt bytes (i + 1) with
  | some b0, some b1 => .ok (be16 b0 b1)
  | _, _ => .error .panic

/-- Read a big-endian u32 at index `i` (four consecutive byte indexings). -/
def readU32 (bytes : List Nat) (i : Nat) : Except ParseFault Nat :=
  match byteAt bytes i, byteAt bytes (i + 1), byteAt bytes (i + 2), byteAt bytes (i + 3) with
  | some b0, some b1, some b2, some b3 => .ok (be32 b0 b1 b2 b3)
  | _, _, _, _ => .error .panic

/-- Read `len` raw bytes starting at `offset`; too few remaining is a panic. -/
def readSlice (bytes : List Nat) (offset len : Nat) : Except ParseFault (List Nat) :=
  if offset + len ≤ bytes.length then .ok ((bytes.drop offset).take len) else .error .panic

/-- Modelled from the spec: the `Constant` enum of constant.rs (not under
src/).  Tagged variants per spec section 3; `reserved` is the phantom hole
occupying the second slot of a `Long`/`Double` entry, `unusedZero` is the
unused index-0 slot. -/
inductive Constant where
  | unusedZero
  | reserved
  | utf8 (value : String)
  | integer (value : Nat)
  | float (raw : Nat)
  | long (hi lo : Nat)
  | double (hi lo : Nat)
  | classref (name_index : Nat)
  | string (utf8_index : Nat)
  | fieldref (class_index nameandtype_index : Nat)
  | methodref (class_index nameandtype_index : Nat)
  | interfacemethodref (class_index nameandtype_index : Nat)
  | nameandtype (name_index descriptor_index : Nat)
  | methodhandle (reference_kind reference_index : Nat)
  | methodtype (descriptor_index : Nat)
  | invokedynamic (bootstrap_index nameandtype_index : Nat)
deriving DecidableEq

/-- Modelled from the spec: byte-wise decoding of a Utf8 constant's bytes to
a string (agrees with UTF-8 on the ASCII names appearing in class files). -/
def decodeUtf8 (bs : List Nat) : String := String.mk (bs.map Char.ofNat)

/-- Modelled from the spec: the `ConstantPool` struct of constantpool.rs
(not under src/): the parsed count and the pool, indexed from 1 with an
unused slot 0. -/
structure ConstantPool where
  constant_pool_count : Nat
  pool : List Constant
deriving DecidableEq

/-- Modelled from the spec: `ConstantPool::get(idx)`; indices outside the
pool yield the unused placeholder (which matches no expected tag). -/
def ConstantPool.get (cp : ConstantPool) (idx : Nat) : Constant :=
  cp.pool.getD idx .unusedZero

/-- Modelled from the spec: parse one constant-pool entry at `offset`,
standard class-file layouts per tag; returns the constant, the offset just
past it, and whether it occupies two pool slots (`Long`/`Double`).
An unrecognized tag is a `badTag` fault. -/
def parseConstant (bytes : List Nat) (offset : Nat) :
    Except ParseFault (Constant × Nat × Bool) :=
  match readU8 bytes offset with
  | .error e => .error e
  | .ok tag =>
    if tag = 1 then
      match readU16 bytes (offset + 1) with
      | .error e => .error e
      | .ok len =>
        match readSlice bytes (offset + 3) len with
        | .error e => .error e
        | .ok bs => .ok (.utf8 (decodeUtf8 bs), offset + 3 + len, false)
    else if tag = 3 then
      match readU32 bytes (offset + 1) with
      | .error e => .error e
      | .ok v => .ok (.integer v, offset + 5, false)
    else if tag = 4 then
      match readU32 bytes (offset + 1) with
      | .error e => .error e
      | .ok v => .ok (.float v, offset + 5, false)
    else if tag = 5 then
      match readU32 bytes (offset + 1), readU32 bytes (offset + 5) with
      | .ok hi, .ok lo => .ok (.long hi lo, offset + 9, true)
      | _, _ => .error .panic
    else if tag = 6 then
      match readU32 bytes (offset + 1), readU32 bytes (offset + 5) with
      | .ok hi, .ok lo => .ok (.double hi lo, offset + 9, true)
      | _, _ => .error .panic
    else if tag = 7 then
      match readU16 bytes (offset + 1) with
      | .error e => .error e
      | .ok ni => .ok (.classref ni, offset + 3, false)
    else if tag = 8 then
      match readU16 bytes (offset + 1) with
      | .error e => .error e
      | .ok ui => .ok (.string ui, offset + 3, false)
    else if tag = 9 then
      match readU16 bytes (offset + 1), readU16 bytes (offset + 3) with
      | .ok ci, .ok ni => .ok (.fieldref ci ni, offset + 5, false)
      | _, _ => .error .panic
    else if tag = 10 then
      match readU16 bytes (offset + 1), readU16 bytes (offset + 3) with
      | .ok ci, .ok ni => .ok (.methodref ci ni, offset + 5, false)
      | _, _ => .error .panic
    else if tag = 11 then
      match readU16 bytes (offset + 1), readU16 bytes (offset + 3) with
      | .ok ci, .ok ni => .ok (.interfacemethodref ci ni, offset + 5, false)
      | _, _ => .error .panic
    else if tag = 12 then
      match readU16 bytes (offset + 1), readU16 bytes (offset + 3) with
      | .ok ni, .ok di => .ok (.nameandtype ni di, offset + 5, false)
      | _, _ => .error .panic
    else if tag = 15 then
      match readU8 bytes (offset + 1), readU16 bytes (offset + 2) with
      | .ok k, .ok ri => .ok (.methodhandle k ri, offset + 4, false)
      | _, _ => .error .panic
    else if tag = 16 then
      match readU16 bytes (offset + 1) with
      | .error e => .error e
      | .ok di => .ok (.methodtype di, offset + 3, false)
    else if tag = 18 then
      match readU16 bytes (offset + 1), readU16 bytes (offset + 3) with
      | .ok bi, .ok ni => .ok (.invokedynamic bi ni, offset + 5, false)
      | _, _ => .error .panic
    else
      .error (.badTag tag)

/-- Modelled from the spec: fill `slots` constant-pool slots starting at
`offset`; a `Long`/`Double` entry consumes two slots, the second being a
`reserved` phantom hole.  Returns the slot contents in order and the offset
just past the consumed bytes. -/
def cpSlots (bytes : List Nat) : Nat → Nat → Except ParseFault (List Constant × Nat)
  | 0, offset => .ok ([], offset)
  | 1, offset =>
    match parseConstant bytes offset with
    | .error e => .error e
    | .ok (c, off2, two) =>
      .ok (if two then [c, .reserved] else [c], off2)
  | (r + 2), offset =>
    match parseConstant bytes offset with
    | .error e => .error e
    | .ok (c, off2, two) =>
      if two then
        match cpSlots bytes r off2 with
        | .error e => .error e
        | .ok (rest, off3) => .ok (c :: .reserved :: rest, off3)
      else
        match cpSlots bytes (r + 1) off2 with
        | .error e => .error e
        | .ok (rest, off3) => .ok (c :: rest, off3)

/-- Modelled from the spec: `ConstantPool::from(bytes)` together with
`byte_len()`: reads `cp_count` (2 bytes) then `cp_count - 1` pool slots;
returns the pool and the number of bytes consumed. -/
def ConstantPool.fromBytes (bytes : List Nat) :
    Except ParseFault (ConstantPool × Nat) :=
  match readU16 bytes 0 with
  | .error e => .error e
  | .ok count =>
    match cpSlots bytes (count - 1) 2 with
    | .error e => .error e
    | .ok (slots, off) => .ok (⟨count, .unusedZero :: slots⟩, off)

/-- Modelled from the spec: an attribute record of attribute.rs (not under
src/): `name_index` (2B), `length` (4B), then `length` raw bytes kept as an
opaque blob. -/
structure AttributeInfo where
  attribute_name_index : Nat
  info : List Nat
deriving DecidableEq

/-- Modelled from the spec: parse one attribute at `offset`. -/
def parseAttribute (bytes : List Nat) (offset : Nat) :
    Except ParseFault (AttributeInfo × Nat) :=
  match readU16 bytes offset with
  | .error e => .error e
  | .ok ni =>
    match readU32 bytes (offset + 2) with
    | .error e => .error e
    | .ok len =>
      match readSlice bytes (offset + 6) len with
      | .error e => .error e
      | .ok info => .ok (⟨ni, info⟩, offset + 6 + len)

/-- Modelled from the spec: parse `count` consecutive attributes. -/
def attributesLoop (bytes : List Nat) : Nat → Nat → Except ParseFault (List AttributeInfo × Nat)
  | 0, offset => .ok ([], offset)
  | (k + 1), offset =>
    match parseAttribute bytes offset with
    | .error e => .error e
    | .ok (a, off2) =>
      match attributesLoop bytes k off2 with
      | .error e => .error e
      | .ok (rest, off3) => .ok (a :: rest, off3)

/-- Modelled from the spec: `Attributes::from(bytes)` with
`attributes_count()` and `byte_len()`: a 2-byte count then that many
attributes; returns (count, attributes, bytes consumed). -/
def Attributes.fromBytes (bytes : List Nat) :
    Except ParseFault (Nat × List AttributeInfo × Nat) :=
  match readU16 bytes 0 with
  | .error e => .error e
  | .ok count =>
    match attributesLoop bytes count 2 with
    | .error e => .error e
    | .ok (attrs, off) => .ok (count, attrs, off)

/-- Modelled from the spec: field_info and method_info share this layout
(spec section 4.1): `access_flags` (2B), `name_index` (2B),
`descriptor_index` (2B), `attributes_count` (2B), then the attributes. -/
structure MemberInfo where
  access_flags : Nat
  name_index : Nat
  descriptor_index : Nat
  attributes_count : Nat
  attributes : List AttributeInfo
deriving DecidableEq

/-- Modelled from the spec: parse one field_info / method_info record. -/
def parseMemberInfo (bytes : List Nat) (offset : Nat) :
    Except ParseFault (MemberInfo × Nat) :=
  match readU16 bytes offset with
  | .error e => .error e
  | .ok af =>
    match readU16 bytes (offset + 2) with
    | .error e => .error e
    | .ok ni =>
      match readU16 bytes (offset + 4) with
      | .error e => .error e
      | .ok di =>
        match readU16 bytes (offset + 6) with
        | .error e => .error e
        | .ok ac =>
          match attributesLoop bytes ac (offset + 8) with
          | .error e => .error e
          | .ok (attrs, off2) => .ok (⟨af, ni, di, ac, attrs⟩, off2)

/-- Modelled from the spec: parse `count` consecutive member records. -/
def membersLoop (bytes : List Nat) : Nat → Nat → Except ParseFault (List MemberInfo × Nat)
  | 0, offset => .ok ([], offset)
  | (k + 1), offset =>
    match parseMemberInfo bytes offset with
    | .error e => .error e
    | .ok (m, off2) =>
      match membersLoop bytes k off2 with
      | .error e => .error e
      | .ok (rest, off3) => .ok (m :: rest, off3)

/-- Modelled from the spec: `Fields::from(bytes)` / `Methods::from(bytes)`
with their counts and `byte_len()`: a 2-byte count then that many member
records; returns (count, members, bytes consumed). -/
def Members.fromBytes (bytes : List Nat) :
    Except ParseFault (Nat × List MemberInfo × Nat) :=
  match readU16 bytes 0 with
  | .error e => .error e
  | .ok count =>
    match membersLoop bytes count 2 with
    | .error e => .error e
    | .ok (ms, off) => .ok (count, ms, off)

/-- The `Class` struct of class.rs, field for field. -/
structure Class where
  bytes : List Nat
  magic : Nat
  minor_version : Nat
  major_version : Nat
  constant_pool_count : Nat
  constant_pool : ConstantPool
  access_flags : Nat
  this_class : Nat
  super_class : Nat
  interfaces_count : Nat
  interfaces : List Nat
  fields_count : Nat
  fields : List MemberInfo
  methods_count : Nat
  methods : List MemberInfo
  attributes_count : Nat
  attributes : List AttributeInfo
deriving DecidableEq

/-- The interface loop of `Class::load`, literally: `interfaces` starts as
`interfaces_count` zeroes, and `for i in 1 .. interfaces_count` each
iteration stores a big-endian u16 at position `i` and advances the offset
by 2.  `r` is the number of remaining iterations (`interfaces_count - 1` at
entry, so the iteration for `i = 0` never happens). -/
def interfacesLoop (bytes : List Nat) : Nat → Nat → Nat → List Nat →
    Except ParseFault (List Nat × Nat)
  | 0, offset, _, arr => .ok (arr, offset)
  | (r + 1), offset, i, arr =>
    match readU16 bytes offset with
    | .error e => .error e
    | .ok v => interfacesLoop bytes r (offset + 2) (i + 1) (arr.set i v)

/-
The parsing part of `Class::load` (class.rs lines 112-177), after the
file's bytes have been read: magic (4B), minor (2B), major (2B), the
constant pool, access flags / this_class / super_class / interfaces_count
(2B each), the interface loop starting at index 1, then fields, methods and
attributes.  No validation of magic or version is performed; the only
failure modes are panics on out-of-bounds indexing and unknown
constant-pool tags.  The straight-line body is split at each read into one
named stage per statement; composed in order, the stages are the source's
statement sequence, each stage's parameters being the values parsed so
far. -/

/-- Stage 12 of `Class::load`: `load_attributes` on the bytes past the
methods, then assemble the `Class` record. -/
def loadAttributes (bytes : List Nat) (magic minor major : Nat) (cp : ConstantPool)
    (access thisc superc icount : Nat) (ifs : List Nat) (off2 fcount : Nat)
    (flds : List MemberInfo) (flen mcount : Nat) (mths : List MemberInfo) (mlen : Nat) :
    Except ParseFault Class :=
  match Attributes.fromBytes (bytes.drop (off2 + flen + mlen)) with
  | .error e => .error e
  | .ok (acount, attrs, _alen) =>
    .ok { bytes := bytes
          magic := magic
          minor_version := minor
          major_version := major
          constant_pool_count := cp.constant_pool_count
          constant_pool := cp
          access_flags := access
          this_class := thisc
          super_class := superc
          interfaces_count := icount
          interfaces := ifs
          fields_count := fcount
          fields := flds
          methods_count := mcount
          methods := mths
          attributes_count := acount
          attributes := attrs }

/-- Stage 11 of `Class::load`: `load_methods` on the bytes past the
fields. -/
def loadMethods (bytes : List Nat) (magic minor major : Nat) (cp : ConstantPool)
    (access thisc superc icount : Nat) (ifs : List Nat) (off2 fcount : Nat)
    (flds : List MemberInfo) (flen : Nat) : Except ParseFault Class :=
  match Members.fromBytes (bytes.drop (off2 + flen)) with
  | .error e => .error e
  | .ok (mcount, mths, mlen) =>
    loadAttributes bytes magic minor major cp access thisc superc icount ifs off2
      fcount flds flen mcount mths mlen

/-- Stage 10 of `Class::load`: `load_fields` on the bytes past the
interfaces (`off2` is the offset the interface loop stopped at). -/
def loadFields (bytes : List Nat) (magic minor major : Nat) (cp : ConstantPool)
    (access thisc superc icount : Nat) (ifs : List Nat) (off2 : Nat) :
    Except ParseFault Class :=
  match Members.fromBytes (bytes.drop off2) with
  | .error e => .error e
  | .ok (fcount, flds, flen) =>
    loadMethods bytes magic minor major cp access thisc superc icount ifs off2
      fcount flds flen

/-- Stage 9 of `Class::load`: the interface loop, starting from
`interfaces_count` zeroes at loop index 1 (line 155). -/
def loadInterfaces (bytes : List Nat) (magic minor major : Nat) (cp : ConstantPool)
    (cplen access thisc superc icount : Nat) : Except ParseFault Class :=
  match interfacesLoop bytes (icount - 1) (8 + cplen + 8) 1 (List.replicate icount 0) with
  | .error e => .error e
  | .ok (ifs, off2) =>
    loadFields bytes magic minor major cp access thisc superc icount ifs off2

/-- Stage 8 of `Class::load`: read `interfaces_count` (line 147). -/
def loadInterfacesCount (bytes : List Nat) (magic minor major : Nat) (cp : ConstantPool)
    (cplen access thisc superc : Nat) : Except ParseFault Class :=
  match readU16 bytes (8 + cplen + 6) with
  | .error e => .error e
  | .ok icount =>
    loadInterfaces bytes magic minor major cp cplen access thisc superc icount

/-- Stage 7 of `Class::load`: read `super_class` (line 143). -/
def loadSuperClass (bytes : List Nat) (magic minor major : Nat) (cp : ConstantPool)
    (cplen access thisc : Nat) : Except ParseFault Class :=
  match readU16 bytes (8 + cplen + 4) with
  | .error e => .error e
  | .ok superc => loadInterfacesCount bytes magic minor major cp cplen access thisc superc

/-- Stage 6 of `Class::load`: read `this_class` (line 139). -/
def loadThisClass (bytes : List Nat) (magic minor major : Nat) (cp : ConstantPool)
    (cplen access : Nat) : Except ParseFault Class :=
  match readU16 bytes (8 + cplen + 2) with
  | .error e => .error e
  | .ok thisc => loadSuperClass bytes magic minor major cp cplen access thisc

/-- Stage 5 of `Class::load`: read `access_flags` just past the constant
pool (line 135). -/
def loadAccessFlags (bytes : List Nat) (magic minor major : Nat) (cp : ConstantPool)
    (cplen : Nat) : Except ParseFault Class :=
  match readU16 bytes (8 + cplen) with
  | .error e => .error e
  | .ok access => loadThisClass bytes magic minor major cp cplen access

/-- Stage 4 of `Class::load`: `load_constant_pool` on the bytes from
offset 8 (line 132); `cplen` is its `byte_len()`. -/
def loadConstantPool (bytes : List Nat) (magic minor major : Nat) :
    Except ParseFault Class :=
  match ConstantPool.fromBytes (bytes.drop 8) with
  | .error e => .error e
  | .ok (cp, cplen) => loadAccessFlags bytes magic minor major cp cplen

/-- Stage 3 of `Class::load`: read `major_version` (line 124). -/
def loadMajor (bytes : List Nat) (magic minor : Nat) : Except ParseFault Class :=
  match readU16 bytes 6 with
  | .error e => .error e
  | .ok major => loadConstantPool bytes magic minor major

/-- Stage 2 of `Class::load`: read `minor_version` (line 120). -/
def loadMinor (bytes : List Nat) (magic : Nat) : Except ParseFault Class :=
  match readU16 bytes 4 with
  | .error e => .error e
  | .ok minor => loadMajor bytes magic minor

/-- The parsing part of `Class::load` on the file's bytes: read the magic
(line 114), then the remaining stages in statement order. -/
def parseClass (bytes : List Nat) : Except ParseFault Class :=
  match readU32 bytes 0 with
  | .error e => .error e
  | .ok magic => loadMinor bytes magic

/-- `Class::load` (class.rs line 89): opening and reading the file is
modelled by a filesystem map from path to byte contents; a file that cannot
be opened or read makes `load` print a message and return `None`.  A
successful read hands the bytes to the parsing part, whose panics abort the
process (the `Except` error outcome). -/
def Class.load (filesystem : String → Option (List Nat)) (class_with_path : String) :
    Except ParseFault (Option Class) :=
  match filesystem class_with_path with
  | none => .ok none
  | some bytes => (parseClass bytes).map some

/-- `Class::get_name` (class.rs line 51): look up `this_class` in the
constant pool; a `Class` constant pointing to a `Utf8` constant yields the
name, any other shape yields `None`. -/
def Class.get_name (c : Class) : Option String :=
  match c.constant_pool.get c.this_class with
  | .classref name_idx =>
    match c.constant_pool.get name_idx with
    | .utf8 name => some name
    | _ => none
  | _ => none

/-- Modelled from the spec: `Class::resolve_superclass` (called by
object.rs, defined in a part of class.rs not in the source under study):
`super_class` may be 0 only for java/lang/Object, in which case there is no
superclass; otherwise the name is resolved through the Class -> Utf8 chain,
a shape mismatch yielding no name. -/
def Class.resolve_superclass (c : Class) : Option String :=
  if c.super_class = 0 then none
  else
    match c.constant_pool.get c.super_class with
    | .classref name_idx =>
      match c.constant_pool.get name_idx with
      | .utf8 name => some name
      | _ => none
    | _ => none

/-- Modelled from the spec: the primitive kinds of typevalues.rs (not under
src/), the `{B,C,D,F,I,J,S,Z}` field-descriptor letters plus `Void`. -/
inductive JvmPrimitiveType where
  | boolean
  | byte
  | char
  | short
  | int
  | long
  | float
  | double
  | void
deriving DecidableEq

mutual

/-- Modelled from the spec: `JvmType` of typevalues.rs (not under src/): a
primitive or a reference type. -/
inductive JvmType where
  | primitive (p : JvmPrimitiveType)
  | reference (r : JvmReferenceType)

/-- Modelled from the spec: `JvmReferenceType` of typevalues.rs (not under
src/): a class reference `L<name>;` or an array `[T` (the second component
mirrors the source's extra `access` slot carried by `Array`). -/
inductive JvmReferenceType where
  | classtype (name : String)
  | array (component : JvmType) (access : Nat)

end

/-- Modelled from the spec: `JvmType::from(descriptor_bytes)` — parse a
field descriptor: one primitive letter, `L<name>;`, or `[` followed by the
component descriptor.  A malformed descriptor falls back to `Void` (the
source under study never consults this case). -/
def JvmType.fromChars : List Char → JvmType
  | 'B' :: _ => .primitive .byte
  | 'C' :: _ => .primitive .char
  | 'D' :: _ => .primitive .double
  | 'F' :: _ => .primitive .float
  | 'I' :: _ => .primitive .int
  | 'J' :: _ => .primitive .long
  | 'S' :: _ => .primitive .short
  | 'Z' :: _ => .primitive .boolean
  | 'L' :: rest => .reference (.classtype (String.mk (rest.takeWhile (fun ch => ch ≠ ';'))))
  | '[' :: rest => .reference (.array (JvmType.fromChars rest) 0)
  | _ => .primitive .void

/-- Modelled from the spec: `JvmArray` of array.rs (not under src/):
`JvmArray::new(len)` allocates an array of the given length (instantiate
only ever creates the empty one; the backing vector and component type are
not consulted by any operation under study and are omitted). -/
structure JvmArray where
  length : Nat
deriving DecidableEq

/-- Modelled from the spec: `JvmReferenceTargetType` of typevalues.rs (not
under src/): what a reference value designates — `Null`, an object, or an
array. -/
inductive JvmReferenceTargetType where
  | null
  | object (id : Nat)
  | array (arr : JvmArray)
deriving DecidableEq

/-- Modelled from the spec: `JvmValue` of typevalues.rs (not under src/).
A primitive carries its kind, two 32-bit payload halves (all zeros is the
default), and the field's access flags; a reference carries its reference
type, its target, and an access value. -/
inductive JvmValue where
  | primitive (p : JvmPrimitiveType) (hi lo : Nat) (access : Nat)
  | reference (r : JvmReferenceType) (target : JvmReferenceTargetType) (access : Nat)

/-- Modelled from the spec: `create_null_value()` of typevalues.rs: the
default reference value, a `Null` target. -/
def create_null_value : JvmValue :=
  .reference (.classtype "java/lang/Object") .null 0

/-- Discriminator: is this value a reference whose target is `Null`? -/
def JvmValue.isNullRef : JvmValue → Bool
  | .reference _ .null _ => true
  | _ => false

/-- Discriminator: is this value a reference whose target is an array? -/
def JvmValue.isArrayRef : JvmValue → Bool
  | .reference _ (.array _) _ => true
  | _ => false

/-- The fatal errors raised (via `FatalError::new(..).call()`) on the paths
of object.rs under study.  Modelled from the spec: error.rs is not under
src/; per spec section 4.7 a VM-level fatal error terminates the process,
so it is embedded as the error outcome of an `Except` (the source
expressions following `.call()` are unreachable).  `outOfFuel` is an
artifact of embedding the unbounded superclass recursion with explicit
fuel. -/
inductive Fatal where
  | invalidConstantReference (class_name : Option String) (expected : String) (idx : Nat)
  | notImplemented (msg : String)
  | classNotLoaded (name : String)
  | outOfFuel

/-- An instance-field table: the `HashMap<String, Rc<JvmValue>>` of a
`JvmObject`, embedded by its lookup function. -/
def FieldMap : Type := String → Option JvmValue

/-- `HashMap::insert`: the inserted key maps to the new value, every other
key is unchanged. -/
def FieldMap.insert (m : FieldMap) (k : String) (v : JvmValue) : FieldMap :=
  fun k2 => if k2 = k then some v else m k2

def FieldMap.empty : FieldMap := fun _ => none

/-- One layer of an object: its class and its own field table.  The
source's `spr: Option<Rc<JvmObject>>` chain is represented by the list of
layers above the base layer. -/
structure JvmObjectLayer where
  cls : Class
  fields : FieldMap

/-- A `JvmObject` (object.rs): its class, its instance-field table, and the
chain of superclass layers built by `instantiate` (empty for a freshly
created object). -/
structure JvmObject where
  base : JvmObjectLayer
  spr : List JvmObjectLayer

/-- `JvmObject::new` (object.rs line 77): no superclass layer, empty field
table. -/
def JvmObject.new (cls : Class) : JvmObject :=
  ⟨⟨cls, FieldMap.empty⟩, []⟩

/-- `JvmObject::set_field` (object.rs line 90): insert into the object's
own field table. -/
def JvmObject.set_field (o : JvmObject) (field_name : String) (value : JvmValue) : JvmObject :=
  { o with base := { o.base with fields := o.base.fields.insert field_name value } }

/-- `JvmObject::get_field` (object.rs line 94): look up the object's own
field table. -/
def JvmObject.get_field (o : JvmObject) (field_name : String) : Option JvmValue :=
  o.base.fields field_name

/-- `JvmObject::is_type_of` (object.rs line 110) along a layer chain:
compare the layer's class name (the `.unwrap()` panic on a nameless class
is the `none` outcome), then recurse into the superclass layer, `false`
when the chain ends. -/
def isTypeOfChain : JvmObjectLayer → List JvmObjectLayer → String → Option Bool
  | layer, rest, t =>
    match layer.cls.get_name with
    | none => none
    | some n =>
      if n = t then some true
      else
        match rest with
        | [] => some false
        | s :: rest2 => isTypeOfChain s rest2 t

/-- `JvmObject::is_type_of` on an object. -/
def JvmObject.is_type_of (o : JvmObject) (t : String) : Option Bool :=
  isTypeOfChain o.base o.spr t

/-- The default value `instantiate` computes for a declared field of type
`t` (object.rs lines 160-176): a primitive gets all-zero payload with the
field's access flags; an array reference gets a reference to a freshly
allocated empty `JvmArray`; any other reference type raises the
`NotImplemented` fatal error (the `create_null_value()` after `.call()` is
unreachable). -/
def defaultFieldValue (access_flags : Nat) : JvmType → Except Fatal JvmValue
  | .primitive p => .ok (.primitive p 0 0 access_flags)
  | .reference r =>
    match r with
    | .array t access => .ok (.reference (.array t access) (.array ⟨0⟩) 0)
    | _ => .error (.notImplemented "Getting a reference type field other than an array.")

/-- The per-field initialization loop of `JvmObject::instantiate`
(object.rs lines 130-198): for each declared field, resolve the descriptor
through the constant pool (a non-`Utf8` constant is an
`InvalidConstantReference` fatal error), compute the default value, resolve
the field name (same fatal error on mismatch), and insert it into the field
table. -/
def instantiateFieldsLoop (cls : Class) : List MemberInfo → FieldMap → Except Fatal FieldMap
  | [], m => .ok m
  | field :: rest, m =>
    match cls.constant_pool.get field.descriptor_index with
    | .utf8 d =>
      let t := JvmType.fromChars d.data
      match defaultFieldValue field.access_flags t with
      | .error e => .error e
      | .ok value =>
        match cls.constant_pool.get field.name_index with
        | .utf8 name => instantiateFieldsLoop cls rest (m.insert name value)
        | _ => .error (.invalidConstantReference cls.get_name "Utf8" field.name_index)
    | _ => .error (.invalidConstantReference cls.get_name "Utf8" field.descriptor_index)

/-- The field-initialization part of `instantiate` starting from the empty
table of a fresh object. -/
def instantiateFields (cls : Class) : Except Fatal FieldMap :=
  instantiateFieldsLoop cls cls.fields FieldMap.empty

/-- `JvmObject::instantiate` (object.rs lines 120-252).  The method area is
modelled as the map from class name to loaded class that
`maybe_load_class` + `get_class_rc` realize (a name it cannot supply is the
`ClassNotLoaded` fatal error).  After the declared fields are
default-initialized, the superclass chain is built recursively — except
that a superclass named `java/lang/Object` is *not* instantiated (the
source returns early: "Not making the base class java/lang/Object").
`fuel` bounds the recursion depth; the source would loop forever where
`outOfFuel` is returned.  The `maybe_initialize_class` side effect on the
initializing thread carries no information consulted here and is omitted. -/
def instantiate (methodarea : String → Option Class) : Nat → Class → Except Fatal JvmObject
  | fuel, cls =>
    match instantiateFields cls with
    | .error e => .error e
    | .ok flds =>
      match cls.resolve_superclass with
      | none => .ok ⟨⟨cls, flds⟩, []⟩
      | some superclass_name =>
        if superclass_name = "java/lang/Object" then .ok ⟨⟨cls, flds⟩, []⟩
        else
          match methodarea superclass_name with
          | none => .error (.classNotLoaded superclass_name)
          | some scls =>
            match fuel with
            | 0 => .error .outOfFuel
            | f + 1 =>
              match instantiate methodarea f scls with
              | .error e => .error e
              | .ok sobj => .ok ⟨⟨cls, flds⟩, sobj.base :: sobj.spr⟩

/-- `new_object`: create a fresh `JvmObject` for the class and run
`instantiate` on it. -/
def newObject (methodarea : String → Option Class) (fuel : Nat) (cls : Class) :
    Except Fatal JvmObject :=
  instantiate methodarea fuel cls

/-- The `Jvm` struct of mod.rs. -/
structure Jvm where
  debug : Bool

/-- `Jvm::new` (mod.rs line 41). -/
def Jvm.new (debug : Bool) : Option Jvm :=
  some { debug := debug }

/-- The `JvmThread` handle created by `Jvm::run` with the VM's debug flag. -/
structure JvmThread where
  debug : Bool

def JvmThread.new (debug : Bool) : JvmThread :=
  { debug := debug }

/-- Modelled from the spec: `JvmThread::run` (jvmthread.rs is not under
src/).  Per the spec the thread loads the start class, builds the bootstrap
frame and runs the interpreter loop on (class, function, args); the debug
flag only configures the logging sink, an injected collaborator (spec
sections 1 and 9), so the success result is given by an interpreter
semantics `sem` of the program inputs alone. -/
def JvmThread.run (sem : String → String → List String → Bool) (_t : JvmThread)
    (start_class_filename start_function : String) (args : List String) : Bool :=
  sem start_class_filename start_function args

/-- `Jvm::run` (mod.rs lines 45-71): create a thread with the VM's debug
flag and run it; return `true` on success and `false` on failure (the
`println!` calls inside the two `if self.debug` blocks produce output only
and are omitted). -/
def Jvm.run (sem : String → String → List String → Bool) (j : Jvm)
    (start_class_filename start_function : String) (args : List String) : Bool :=
  let thread := JvmThread.new j.debug
  if JvmThread.run sem thread start_class_filename start_function args then true
  else false

/-! Helper lemmas about the byte readers. -/

theorem byteAt_eq_getElem? : ∀ (l : List Nat) (i : Nat), byteAt l i = l[i]? := by
  intro l
  induction l with
  | nil => intro i; rfl
  | cons b rest ih =>
    intro i
    cases i with
    | zero => rw [List.getElem?_cons_zero]; rfl
    | succ j =>
      rw [List.getElem?_cons_succ]
      exact ih j

theorem readU16_error_eq {bytes : List Nat} {i : Nat} {e : ParseFault}
    (h : readU16 bytes i = .error e) : e = .panic := by
  unfold readU16 at h
  split at h
  · exact absurd h (by simp)
  · injection h with h2
    exact h2.symm

theorem readU32_error_eq {bytes : List Nat} {i : Nat} {e : ParseFault}
    (h : readU32 bytes i = .error e) : e = .panic := by
  unfold readU32 at h
  split at h
  · exact absurd h (by simp)
  · injection h with h2
    exact h2.symm

theorem readU16_ok_len {bytes : List Nat} {i v : Nat}
    (h : readU16 bytes i = .ok v) : i + 2 ≤ bytes.length := by
  unfold readU16 at h
  split at h
  next b0 b1 h1 h2 =>
    rw [byteAt_eq_getElem?] at h2
    have := (List.getElem?_eq_some.mp h2).1
    omega
  · exact absurd h (by simp)

theorem readU16_ok_getD {bytes : List Nat} {i v : Nat}
    (h : readU16 bytes i = .ok v) :
    v = be16 (bytes.getD i 0) (bytes.getD (i + 1) 0) := by
  unfold readU16 at h
  split at h
  next b0 b1 h1 h2 =>
    injection h with h3
    rw [byteAt_eq_getElem?] at h1 h2
    rw [List.getD_eq_getElem?_getD, List.getD_eq_getElem?_getD, h1, h2]
    exact h3.symm
  · exact absurd h (by simp)

theorem readU32_ok_getD {bytes : List Nat} {i v : Nat}
    (h : readU32 bytes i = .ok v) :
    v = be32 (bytes.getD i 0) (bytes.getD (i + 1) 0)
          (bytes.getD (i + 2) 0) (bytes.getD (i + 3) 0) := by
  unfold readU32 at h
  split at h
  next b0 b1 b2 b3 h1 h2 h3 h4 =>
    injection h with h5
    rw [byteAt_eq_getElem?] at h1 h2 h3 h4
    rw [List.getD_eq_getElem?_getD, List.getD_eq_getElem?_getD,
        List.getD_eq_getElem?_getD, List.getD_eq_getElem?_getD, h1, h2, h3, h4]
    exact h5.symm
  · exact absurd h (by simp)

theorem cpFromBytes_short {bytes : List Nat}
    (h : bytes.length ≤ 1) : ConstantPool.fromBytes bytes = .error .panic := by
  unfold ConstantPool.fromBytes
  cases h0 : readU16 bytes 0 with
  | error e =>
    have he := readU16_error_eq h0
    subst he
    rfl
  | ok v =>
    have := readU16_ok_len h0
    omega

/-! C5.  The claim says a too-short input is rejected through a
`TruncatedInput` error channel and that byte indexing never goes out of
bounds.  The reader has no such channel: it indexes `c.bytes[offset]`
directly, and a too-short input panics (an out-of-bounds `Vec` index
aborts the process).  The amended statement: every input too short to
reach the constant pool (fewer than 10 bytes) makes `Class::load` panic. -/

/-- C5 (counterexample): loading a class file whose contents are empty
does not produce a recoverable error value for that class: the load
panics on the very first byte index. -/
theorem c5_counterexample :
    Class.load (fun _ => some []) "Truncated" = .error ParseFault.panic := rfl

/-- C5 (amended): on any input of fewer than 10 bytes — too short for the
fields being parsed — the parsing part of `Class::load` panics with an
out-of-bounds byte index (the `panic` outcome) instead of returning a
`TruncatedInput` error. -/
theorem c5_truncation_panics (bytes : List Nat) (h : bytes.length ≤ 9) :
    parseClass bytes = .error .panic := by
  unfold parseClass
  cases h0 : readU32 bytes 0 with
  | error e =>
    have he := readU32_error_eq h0
    subst he
    rfl
  | ok magic =>
    show loadMinor bytes magic = Except.error ParseFault.panic
    unfold loadMinor
    cases h1 : readU16 bytes 4 with
    | error e =>
      have he := readU16_error_eq h1
      subst he
      rfl
    | ok minor =>
      show loadMajor bytes magic minor = Except.error ParseFault.panic
      unfold loadMajor
      cases h2 : readU16 bytes 6 with
      | error e =>
        have he := readU16_error_eq h2
        subst he
        rfl
      | ok major =>
        show loadConstantPool bytes magic minor major = Except.error ParseFault.panic
        unfold loadConstantPool
        rw [cpFromBytes_short (by rw [List.length_drop]; omega)]

/-- C5 (witness): a concrete one-byte input satisfies the hypothesis and
panics. -/
theorem c5_witness :
    ([0xCA] : List Nat).length ≤ 9 ∧ parseClass [0xCA] = .error .panic :=
  ⟨by decide, c5_truncation_panics [0xCA] (by decide)⟩

/-! C7.  `Class::get_name` resolves `this_class` through the
Class -> Utf8 chain of the constant pool; the name comes out exactly when
both tags match, and any shape mismatch produces no string. -/

/-- C7: `get_name` returns a string exactly when `this_class` designates a
`Class` constant whose name index designates a `Utf8` constant; the string
is that constant's value.  In every other shape (either constant has an
unexpected tag) the result is `none`. -/
theorem c7_get_name_iff (c : Class) (s : String) :
    c.get_name = some s ↔
      ∃ name_idx, c.constant_pool.get c.this_class = .classref name_idx ∧
        c.constant_pool.get name_idx = .utf8 s := by
  constructor
  · intro h
    unfold Class.get_name at h
    split at h
    next name_idx heq =>
      split at h
      next name heq2 =>
        injection h with h2
        exact ⟨name_idx, heq, h2 ▸ heq2⟩
      · exact absurd h (by simp)
    · exact absurd h (by simp)
  · rintro ⟨name_idx, h1, h2⟩
    unfold Class.get_name
    rw [h1]
    simp [h2]

/-! C8.  `Class::load` on a path whose file cannot be opened or read. -/

/-- C8: when the filesystem cannot supply the bytes of the named path,
`Class::load` returns `None` — an ordinary value, not a panic — so the
failure is confined to this class load. -/
theorem c8_load_missing_file (filesystem : String → Option (List Nat))
    (path : String) (h : filesystem path = none) :
    Class.load filesystem path = .ok none := by
  unfold Class.load
  rw [h]

/-- C8 (witness): a filesystem with no files at all. -/
theorem c8_witness :
    (fun _ => (none : Option (List Nat))) "Main" = none ∧
      Class.load (fun _ => none) "Main" = .ok none :=
  ⟨rfl, c8_load_missing_file (fun _ => none) "Main" rfl⟩

/-! C9.  `set_field` / `get_field` round trip on the object's field
table. -/

/-- C9: after `set_field n v`, `get_field n` returns `v`, and `get_field m`
for any other field name `m` is unchanged. -/
theorem c9_field_roundtrip (o : JvmObject) (n m : String) (v : JvmValue) :
    (o.set_field n v).get_field n = some v ∧
      (m ≠ n → (o.set_field n v).get_field m = o.get_field m) := by
  constructor
  · unfold JvmObject.set_field JvmObject.get_field FieldMap.insert
    simp
  · intro hm
    unfold JvmObject.set_field JvmObject.get_field FieldMap.insert
    simp [hm]

/-- A class value with all-default fields (the `Class::default()` the
loader starts from), used to build concrete objects. -/
def emptyClass : Class :=
  { bytes := [], magic := 0, minor_version := 0, major_version := 0,
    constant_pool_count := 0, constant_pool := ⟨0, []⟩,
    access_flags := 0, this_class := 0, super_class := 0,
    interfaces_count := 0, interfaces := [],
    fields_count := 0, fields := [],
    methods_count := 0, methods := [],
    attributes_count := 0, attributes := [] }

/-- A concrete object and value for the C9 witness. -/
def c9obj : JvmObject := JvmObject.new emptyClass

def c9val : JvmValue := .primitive .int 0 5 0

/-- C9 (witness): the round trip at concrete names "a" and "b". -/
theorem c9_witness :
    ("b" : String) ≠ "a" ∧
      ((c9obj.set_field "a" c9val).get_field "a" = some c9val ∧
        (("b" : String) ≠ "a" →
          (c9obj.set_field "a" c9val).get_field "b" = c9obj.get_field "b")) :=
  ⟨by decide, c9_field_roundtrip c9obj "a" "b" c9val⟩

/-! C10.  The success result of `Jvm::run` does not depend on the debug
flag: the flag reaches only the thread's logging sink and the two
`println!` blocks of `Jvm::run` itself. -/

/-- C10: for any interpreter semantics, start class, start function and
arguments, the two VMs built by `Jvm::new true` and `Jvm::new false`
return the same success value from `run`. -/
theorem c10_debug_independent (sem : String → String → List String → Bool)
    (start_class_filename start_function : String) (args : List String)
    (d1 d2 : Bool) :
    (Jvm.new d1).map (fun j => j.run sem start_class_filename start_function args) =
      (Jvm.new d2).map (fun j => j.run sem start_class_filename start_function args) := rfl

/-! C6.  The reader interprets the header big-endian at the specified
positions: magic at bytes 0-3, minor at 4-5, major at 6-7; and after the
constant pool (which begins at byte 8 and consumes `cplen` bytes) the four
fields access_flags, this_class, super_class and interfaces_count are read
as consecutive 2-byte big-endian quantities. -/

/-- C6: whenever `Class::load`'s parsing part succeeds, every header field
is the big-endian recombination of the bytes at its specified position. -/
theorem c6_header_layout (bytes : List Nat) (c : Class)
    (h : parseClass bytes = .ok c) :
    c.magic = be32 (bytes.getD 0 0) (bytes.getD 1 0) (bytes.getD 2 0) (bytes.getD 3 0) ∧
    c.minor_version = be16 (bytes.getD 4 0) (bytes.getD 5 0) ∧
    c.major_version = be16 (bytes.getD 6 0) (bytes.getD 7 0) ∧
    ∃ cp cplen, ConstantPool.fromBytes (bytes.drop 8) = .ok (cp, cplen) ∧
      c.constant_pool = cp ∧
      c.access_flags = be16 (bytes.getD (8 + cplen) 0) (bytes.getD (8 + cplen + 1) 0) ∧
      c.this_class = be16 (bytes.getD (8 + cplen + 2) 0) (bytes.getD (8 + cplen + 3) 0) ∧
      c.super_class = be16 (bytes.getD (8 + cplen + 4) 0) (bytes.getD (8 + cplen + 5) 0) ∧
      c.interfaces_count = be16 (bytes.getD (8 + cplen + 6) 0) (bytes.getD (8 + cplen + 7) 0) := by
  unfold parseClass at h
  split at h
  · exact absurd h (by simp)
  next magic h0 =>
  unfold loadMinor at h
  split at h
  · exact absurd h (by simp)
  next minor h1 =>
  unfold loadMajor at h
  split at h
  · exact absurd h (by simp)
  next major h2 =>
  unfold loadConstantPool at h
  split at h
  · exact absurd h (by simp)
  next cp cplen hcp =>
  unfold loadAccessFlags at h
  split at h
  · exact absurd h (by simp)
  next access h3 =>
  unfold loadThisClass at h
  split at h
  · exact absurd h (by simp)
  next thisc h4 =>
  unfold loadSuperClass at h
  split at h
  · exact absurd h (by simp)
  next superc h5 =>
  unfold loadInterfacesCount at h
  split at h
  · exact absurd h (by simp)
  next icount h6 =>
  unfold loadInterfaces at h
  split at h
  · exact absurd h (by simp)
  next ifs off2 h7 =>
  unfold loadFields at h
  split at h
  · exact absurd h (by simp)
  next fcount flds flen h8 =>
  unfold loadMethods at h
  split at h
  · exact absurd h (by simp)
  next mcount mths mlen h9 =>
  unfold loadAttributes at h
  split at h
  · exact absurd h (by simp)
  next acount attrs alen h10 =>
  have hc := Except.ok.inj h
  subst hc
  refine ⟨readU32_ok_getD h0, readU16_ok_getD h1, readU16_ok_getD h2,
    cp, cplen, hcp, rfl, ?_, ?_, ?_, ?_⟩
  · have := readU16_ok_getD h3
    simpa using this
  · have := readU16_ok_getD h4
    have harith : 8 + cplen + 2 + 1 = 8 + cplen + 3 := by omega
    rw [harith] at this
    simpa using this
  · have := readU16_ok_getD h5
    have harith : 8 + cplen + 4 + 1 = 8 + cplen + 5 := by omega
    rw [harith] at this
    simpa using this
  · have := readU16_ok_getD h6
    have harith : 8 + cplen + 6 + 1 = 8 + cplen + 7 := by omega
    rw [harith] at this
    simpa using this

/-! C4.  The claim says a magic other than 0xCAFEBABE makes the load fail
with `BadMagic`.  `Class::load` performs no such check: it stores whatever
four bytes come first and parses on.  The amended statement is a
non-interference property: replacing the first four bytes of any input
changes nothing in the parse except the recorded `magic` (and the stored
raw bytes) — in particular a bad-magic input parses exactly as the
corresponding good-magic input does. -/

/-- An input with its first four bytes replaced. -/
def setMagicBytes (l : List Nat) (m0 m1 m2 m3 : Nat) : List Nat :=
  m0 :: m1 :: m2 :: m3 :: l.drop 4

theorem byteAt_cons4 (x1 x2 x3 x4 : Nat) (t : List Nat) (i : Nat) (h : 4 ≤ i) :
    byteAt (x1 :: x2 :: x3 :: x4 :: t) i = byteAt t (i - 4) := by
  obtain ⟨j, rfl⟩ := Nat.exists_eq_add_of_le h
  rw [Nat.add_comm 4 j, Nat.add_sub_cancel]
  rfl

theorem drop_cons4 (x1 x2 x3 x4 : Nat) (t : List Nat) (n : Nat) (h : 4 ≤ n) :
    (x1 :: x2 :: x3 :: x4 :: t).drop n = t.drop (n - 4) := by
  obtain ⟨j, rfl⟩ := Nat.exists_eq_add_of_le h
  rw [Nat.add_comm 4 j, Nat.add_sub_cancel]
  rfl

theorem readU16_cons4 (x1 x2 x3 x4 y1 y2 y3 y4 : Nat) (t : List Nat) (i : Nat)
    (h : 4 ≤ i) :
    readU16 (x1 :: x2 :: x3 :: x4 :: t) i = readU16 (y1 :: y2 :: y3 :: y4 :: t) i := by
  unfold readU16
  rw [byteAt_cons4 x1 x2 x3 x4 t i h, byteAt_cons4 y1 y2 y3 y4 t i h,
      byteAt_cons4 x1 x2 x3 x4 t (i + 1) (by omega),
      byteAt_cons4 y1 y2 y3 y4 t (i + 1) (by omega)]

theorem interfacesLoop_le (bytes : List Nat) :
    ∀ (r offset i : Nat) (arr ifs : List Nat) (off2 : Nat),
      interfacesLoop bytes r offset i arr = .ok (ifs, off2) → offset ≤ off2 := by
  intro r
  induction r with
  | zero =>
    intro offset i arr ifs off2 h
    unfold interfacesLoop at h
    injection h with h2
    injection h2 with ha hb
    omega
  | succ r ih =>
    intro offset i arr ifs off2 h
    unfold interfacesLoop at h
    split at h
    next e he => exact absurd h (by simp)
    next v hv =>
      have := ih (offset + 2) (i + 1) (arr.set i v) ifs off2 h
      omega

theorem interfacesLoop_cons4 (x1 x2 x3 x4 y1 y2 y3 y4 : Nat) (t : List Nat) :
    ∀ (r offset i : Nat) (arr : List Nat), 4 ≤ offset →
      interfacesLoop (x1 :: x2 :: x3 :: x4 :: t) r offset i arr =
        interfacesLoop (y1 :: y2 :: y3 :: y4 :: t) r offset i arr := by
  intro r
  induction r with
  | zero => intro offset i arr h; rfl
  | succ r ih =>
    intro offset i arr h
    unfold interfacesLoop
    rw [readU16_cons4 x1 x2 x3 x4 y1 y2 y3 y4 t offset h]
    cases hv : readU16 (y1 :: y2 :: y3 :: y4 :: t) offset with
    | error e => rfl
    | ok v => exact ih (offset + 2) (i + 1) (arr.set i v) (by omega)

theorem loadAttributes_cons4 (x1 x2 x3 x4 y1 y2 y3 y4 : Nat) (t : List Nat)
    (magicX magicY minor major : Nat) (cp : ConstantPool)
    (access thisc superc icount : Nat) (ifs : List Nat) (off2 fcount : Nat)
    (flds : List MemberInfo) (flen mcount : Nat) (mths : List MemberInfo) (mlen : Nat)
    (hoff : 4 ≤ off2) :
    loadAttributes (x1 :: x2 :: x3 :: x4 :: t) magicX minor major cp access thisc
        superc icount ifs off2 fcount flds flen mcount mths mlen =
      (loadAttributes (y1 :: y2 :: y3 :: y4 :: t) magicY minor major cp access thisc
          superc icount ifs off2 fcount flds flen mcount mths mlen).map
        (fun cl => { cl with magic := magicX, bytes := x1 :: x2 :: x3 :: x4 :: t }) := by
  unfold loadAttributes
  rw [drop_cons4 x1 x2 x3 x4 t (off2 + flen + mlen) (by omega),
      drop_cons4 y1 y2 y3 y4 t (off2 + flen + mlen) (by omega)]
  cases h : Attributes.fromBytes (t.drop (off2 + flen + mlen - 4)) with
  | error e => rfl
  | ok p =>
    obtain ⟨acount, attrs, alen⟩ := p
    rfl

theorem loadMethods_cons4 (x1 x2 x3 x4 y1 y2 y3 y4 : Nat) (t : List Nat)
    (magicX magicY minor major : Nat) (cp : ConstantPool)
    (access thisc superc icount : Nat) (ifs : List Nat) (off2 fcount : Nat)
    (flds : List MemberInfo) (flen : Nat) (hoff : 4 ≤ off2) :
    loadMethods (x1 :: x2 :: x3 :: x4 :: t) magicX minor major cp access thisc
        superc icount ifs off2 fcount flds flen =
      (loadMethods (y1 :: y2 :: y3 :: y4 :: t) magicY minor major cp access thisc
          superc icount ifs off2 fcount flds flen).map
        (fun cl => { cl with magic := magicX, bytes := x1 :: x2 :: x3 :: x4 :: t }) := by
  unfold loadMethods
  rw [drop_cons4 x1 x2 x3 x4 t (off2 + flen) (by omega),
      drop_cons4 y1 y2 y3 y4 t (off2 + flen) (by omega)]
  cases h : Members.fromBytes (t.drop (off2 + flen - 4)) with
  | error e => rfl
  | ok p =>
    obtain ⟨mcount, mths, mlen⟩ := p
    exact loadAttributes_cons4 x1 x2 x3 x4 y1 y2 y3 y4 t magicX magicY minor major cp
      access thisc superc icount ifs off2 fcount flds flen mcount mths mlen hoff

theorem loadFields_cons4 (x1 x2 x3 x4 y1 y2 y3 y4 : Nat) (t : List Nat)
    (magicX magicY minor major : Nat) (cp : ConstantPool)
    (access thisc superc icount : Nat) (ifs : List Nat) (off2 : Nat)
    (hoff : 4 ≤ off2) :
    loadFields (x1 :: x2 :: x3 :: x4 :: t) magicX minor major cp access thisc
        superc icount ifs off2 =
      (loadFields (y1 :: y2 :: y3 :: y4 :: t) magicY minor major cp access thisc
          superc icount ifs off2).map
        (fun cl => { cl with magic := magicX, bytes := x1 :: x2 :: x3 :: x4 :: t }) := by
  unfold loadFields
  rw [drop_cons4 x1 x2 x3 x4 t off2 hoff, drop_cons4 y1 y2 y3 y4 t off2 hoff]
  cases h : Members.fromBytes (t.drop (off2 - 4)) with
  | error e => rfl
  | ok p =>
    obtain ⟨fcount, flds, flen⟩ := p
    exact loadMethods_cons4 x1 x2 x3 x4 y1 y2 y3 y4 t magicX magicY minor major cp
      access thisc superc icount ifs off2 fcount flds flen hoff

theorem loadInterfaces_cons4 (x1 x2 x3 x4 y1 y2 y3 y4 : Nat) (t : List Nat)
    (magicX magicY minor major : Nat) (cp : ConstantPool)
    (cplen access thisc superc icount : Nat) :
    loadInterfaces (x1 :: x2 :: x3 :: x4 :: t) magicX minor major cp cplen access
        thisc superc icount =
      (loadInterfaces (y1 :: y2 :: y3 :: y4 :: t) magicY minor major cp cplen access
          thisc superc icount).map
        (fun cl => { cl with magic := magicX, bytes := x1 :: x2 :: x3 :: x4 :: t }) := by
  unfold loadInterfaces
  rw [interfacesLoop_cons4 x1 x2 x3 x4 y1 y2 y3 y4 t (icount - 1) (8 + cplen + 8) 1
      (List.replicate icount 0) (by omega)]
  cases h : interfacesLoop (y1 :: y2 :: y3 :: y4 :: t) (icount - 1) (8 + cplen + 8) 1
      (List.replicate icount 0) with
  | error e => rfl
  | ok p =>
    obtain ⟨ifs, off2⟩ := p
    have hoff : 4 ≤ off2 := by
      have := interfacesLoop_le (y1 :: y2 :: y3 :: y4 :: t) (icount - 1) (8 + cplen + 8) 1
        (List.replicate icount 0) ifs off2 h
      omega
    exact loadFields_cons4 x1 x2 x3 x4 y1 y2 y3 y4 t magicX magicY minor major cp
      access thisc superc icount ifs off2 hoff

theorem loadInterfacesCount_cons4 (x1 x2 x3 x4 y1 y2 y3 y4 : Nat) (t : List Nat)
    (magicX magicY minor major : Nat) (cp : ConstantPool)
    (cplen access thisc superc : Nat) :
    loadInterfacesCount (x1 :: x2 :: x3 :: x4 :: t) magicX minor major cp cplen access
        thisc superc =
      (loadInterfacesCount (y1 :: y2 :: y3 :: y4 :: t) magicY minor major cp cplen
          access thisc superc).map
        (fun cl => { cl with magic := magicX, bytes := x1 :: x2 :: x3 :: x4 :: t }) := by
  unfold loadInterfacesCount
  rw [readU16_cons4 x1 x2 x3 x4 y1 y2 y3 y4 t (8 + cplen + 6) (by omega)]
  cases h : readU16 (y1 :: y2 :: y3 :: y4 :: t) (8 + cplen + 6) with
  | error e => rfl
  | ok icount =>
    exact loadInterfaces_cons4 x1 x2 x3 x4 y1 y2 y3 y4 t magicX magicY minor major cp
      cplen access thisc superc icount

theorem loadSuperClass_cons4 (x1 x2 x3 x4 y1 y2 y3 y4 : Nat) (t : List Nat)
    (magicX magicY minor major : Nat) (cp : ConstantPool) (cplen access thisc : Nat) :
    loadSuperClass (x1 :: x2 :: x3 :: x4 :: t) magicX minor major cp cplen access thisc =
      (loadSuperClass (y1 :: y2 :: y3 :: y4 :: t) magicY minor major cp cplen access
          thisc).map
        (fun cl => { cl with magic := magicX, bytes := x1 :: x2 :: x3 :: x4 :: t }) := by
  unfold loadSuperClass
  rw [readU16_cons4 x1 x2 x3 x4 y1 y2 y3 y4 t (8 + cplen + 4) (by omega)]
  cases h : readU16 (y1 :: y2 :: y3 :: y4 :: t) (8 + cplen + 4) with
  | error e => rfl
  | ok superc =>
    exact loadInterfacesCount_cons4 x1 x2 x3 x4 y1 y2 y3 y4 t magicX magicY minor major
      cp cplen access thisc superc

theorem loadThisClass_cons4 (x1 x2 x3 x4 y1 y2 y3 y4 : Nat) (t : List Nat)
    (magicX magicY minor major : Nat) (cp : ConstantPool) (cplen access : Nat) :
    loadThisClass (x1 :: x2 :: x3 :: x4 :: t) magicX minor major cp cplen access =
      (loadThisClass (y1 :: y2 :: y3 :: y4 :: t) magicY minor major cp cplen access).map
        (fun cl => { cl with magic := magicX, bytes := x1 :: x2 :: x3 :: x4 :: t }) := by
  unfold loadThisClass
  rw [readU16_cons4 x1 x2 x3 x4 y1 y2 y3 y4 t (8 + cplen + 2) (by omega)]
  cases h : readU16 (y1 :: y2 :: y3 :: y4 :: t) (8 + cplen + 2) with
  | error e => rfl
  | ok thisc =>
    exact loadSuperClass_cons4 x1 x2 x3 x4 y1 y2 y3 y4 t magicX magicY minor major cp
      cplen access thisc

theorem loadAccessFlags_cons4 (x1 x2 x3 x4 y1 y2 y3 y4 : Nat) (t : List Nat)
    (magicX magicY minor major : Nat) (cp : ConstantPool) (cplen : Nat) :
    loadAccessFlags (x1 :: x2 :: x3 :: x4 :: t) magicX minor major cp cplen =
      (loadAccessFlags (y1 :: y2 :: y3 :: y4 :: t) magicY minor major cp cplen).map
        (fun cl => { cl with magic := magicX, bytes := x1 :: x2 :: x3 :: x4 :: t }) := by
  unfold loadAccessFlags
  rw [readU16_cons4 x1 x2 x3 x4 y1 y2 y3 y4 t (8 + cplen) (by omega)]
  cases h : readU16 (y1 :: y2 :: y3 :: y4 :: t) (8 + cplen) with
  | error e => rfl
  | ok access =>
    exact loadThisClass_cons4 x1 x2 x3 x4 y1 y2 y3 y4 t magicX magicY minor major cp
      cplen access

theorem loadConstantPool_cons4 (x1 x2 x3 x4 y1 y2 y3 y4 : Nat) (t : List Nat)
    (magicX magicY minor major : Nat) :
    loadConstantPool (x1 :: x2 :: x3 :: x4 :: t) magicX minor major =
      (loadConstantPool (y1 :: y2 :: y3 :: y4 :: t) magicY minor major).map
        (fun cl => { cl with magic := magicX, bytes := x1 :: x2 :: x3 :: x4 :: t }) := by
  unfold loadConstantPool
  rw [drop_cons4 x1 x2 x3 x4 t 8 (by omega), drop_cons4 y1 y2 y3 y4 t 8 (by omega)]
  cases h : ConstantPool.fromBytes (t.drop (8 - 4)) with
  | error e => rfl
  | ok p =>
    obtain ⟨cp, cplen⟩ := p
    exact loadAccessFlags_cons4 x1 x2 x3 x4 y1 y2 y3 y4 t magicX magicY minor major cp
      cplen

theorem loadMajor_cons4 (x1 x2 x3 x4 y1 y2 y3 y4 : Nat) (t : List Nat)
    (magicX magicY minor : Nat) :
    loadMajor (x1 :: x2 :: x3 :: x4 :: t) magicX minor =
      (loadMajor (y1 :: y2 :: y3 :: y4 :: t) magicY minor).map
        (fun cl => { cl with magic := magicX, bytes := x1 :: x2 :: x3 :: x4 :: t }) := by
  unfold loadMajor
  rw [readU16_cons4 x1 x2 x3 x4 y1 y2 y3 y4 t 6 (by omega)]
  cases h : readU16 (y1 :: y2 :: y3 :: y4 :: t) 6 with
  | error e => rfl
  | ok major =>
    exact loadConstantPool_cons4 x1 x2 x3 x4 y1 y2 y3 y4 t magicX magicY minor major

theorem loadMinor_cons4 (x1 x2 x3 x4 y1 y2 y3 y4 : Nat) (t : List Nat)
    (magicX magicY : Nat) :
    loadMinor (x1 :: x2 :: x3 :: x4 :: t) magicX =
      (loadMinor (y1 :: y2 :: y3 :: y4 :: t) magicY).map
        (fun cl => { cl with magic := magicX, bytes := x1 :: x2 :: x3 :: x4 :: t }) := by
  unfold loadMinor
  rw [readU16_cons4 x1 x2 x3 x4 y1 y2 y3 y4 t 4 (by omega)]
  cases h : readU16 (y1 :: y2 :: y3 :: y4 :: t) 4 with
  | error e => rfl
  | ok minor =>
    exact loadMajor_cons4 x1 x2 x3 x4 y1 y2 y3 y4 t magicX magicY minor

/-- C4 (amended): `Class::load` does not validate the magic.  Replacing
the first four bytes of any (at least 4-byte) input leaves the parse
outcome identical — same success or failure, same fields — except that
`magic` records the replaced bytes (and `bytes` the replaced input).  In
particular an input whose first four bytes are not `0xCAFEBABE` is not
rejected: no `BadMagic` error exists in the reader. -/
theorem c4_magic_not_validated (l : List Nat) (m0 m1 m2 m3 : Nat)
    (h : 4 ≤ l.length) :
    parseClass (setMagicBytes l m0 m1 m2 m3) =
      (parseClass l).map
        (fun cl => { cl with magic := be32 m0 m1 m2 m3,
                             bytes := setMagicBytes l m0 m1 m2 m3 }) := by
  rcases l with _ | ⟨b0, _ | ⟨b1, _ | ⟨b2, _ | ⟨b3, t⟩⟩⟩⟩
  · simp only [List.length_nil] at h; omega
  · simp only [List.length_cons, List.length_nil] at h; omega
  · simp only [List.length_cons, List.length_nil] at h; omega
  · simp only [List.length_cons, List.length_nil] at h; omega
  · have hset : setMagicBytes (b0 :: b1 :: b2 :: b3 :: t) m0 m1 m2 m3 =
        m0 :: m1 :: m2 :: m3 :: t := rfl
    rw [hset]
    unfold parseClass
    rw [show readU32 (m0 :: m1 :: m2 :: m3 :: t) 0 = .ok (be32 m0 m1 m2 m3) from rfl,
        show readU32 (b0 :: b1 :: b2 :: b3 :: t) 0 = .ok (be32 b0 b1 b2 b3) from rfl]
    exact loadMinor_cons4 m0 m1 m2 m3 b0 b1 b2 b3 t (be32 m0 m1 m2 m3) (be32 b0 b1 b2 b3)

/-- A well-formed minimal class file with a wrong magic (0x00000001):
24 bytes, empty constant pool, no interfaces, fields, methods or
attributes. -/
def c4bad : List Nat := [0, 0, 0, 1, 0, 0, 0, 52, 0, 1,
  0, 0, 0, 0, 0, 0, 0, 0, 0, 0, 0, 0, 0, 0]

/-- C4 (counterexample): the claim as stated is false — this input's first
four bytes read big-endian are 1, not 0xCAFEBABE, yet `Class::load`'s
parse succeeds and produces a `ClassFile` recording magic 1; there is no
`BadMagic` failure. -/
theorem c4_counterexample :
    (parseClass c4bad).isOk = true ∧
      (parseClass c4bad).map (fun cl => cl.magic) = .ok 1 ∧
      (1 : Nat) ≠ 0xCAFEBABE :=
  ⟨rfl, rfl, by decide⟩

/-- A well-formed minimal class file with the correct magic, for the C4
witness. -/
def c4base : List Nat := [0xCA, 0xFE, 0xBA, 0xBE, 0, 0, 0, 52, 0, 1,
  0, 0, 0, 0, 0, 0, 0, 0, 0, 0, 0, 0, 0, 0]

/-- C4 (witness): the amended theorem applied at a concrete input. -/
theorem c4_witness :
    4 ≤ c4base.length ∧
      parseClass (setMagicBytes c4base 0 0 0 1) =
        (parseClass c4base).map
          (fun cl => { cl with magic := be32 0 0 0 1,
                               bytes := setMagicBytes c4base 0 0 0 1 }) :=
  ⟨by decide, c4_magic_not_validated c4base 0 0 0 1 (by decide)⟩

/-! C1.  The interface loop of `Class::load` iterates
`for i in 1 .. interfaces_count`: it reads only `interfaces_count - 1`
index values, stores them at positions 1 and up (position 0 keeps the 0 it
was initialized with), and leaves the stream offset 2 bytes short.  On a
well-formed file the parsed interfaces are therefore not the indices that
follow `interfaces_count` in the input. -/

/-- A well-formed 28-byte class file: empty constant pool,
`interfaces_count = 2` followed by the interface indices 7 and 0 (bytes
18-21), then zero counts for fields, methods and attributes. -/
def c1bytes : List Nat := [0xCA, 0xFE, 0xBA, 0xBE, 0, 0, 0, 52, 0, 1,
  0, 0, 0, 0, 0, 0, 0, 2, 0, 7, 0, 0, 0, 0, 0, 0, 0, 0]

/-- C1: the two 2-byte big-endian indices following `interfaces_count` in
`c1bytes` are 7 and 0, but the parse (which succeeds) records
`interfaces = [0, 7]`: the loop never writes position 0 and stores the
first (and only, of the two) index it reads at position 1. -/
theorem c1_interfaces_bug :
    be16 (c1bytes.getD 18 0) (c1bytes.getD 19 0) = 7 ∧
    be16 (c1bytes.getD 20 0) (c1bytes.getD 21 0) = 0 ∧
    (parseClass c1bytes).map (fun cl => (cl.interfaces_count, cl.interfaces)) =
      .ok (2, [0, 7]) ∧
    ([0, 7] : List Nat) ≠ [7, 0] := by
  refine ⟨by decide, by decide, rfl, by decide⟩

/-! C2.  `instantiate` default-initializes primitive fields to all-zero
payloads, but a reference-typed field does not become `Null`: an array
field gets a reference to a freshly allocated empty `JvmArray`, and any
other reference field raises the `NotImplemented` fatal error. -/

/-- A class "B" with two declared fields: "y" of descriptor "I" (int) and
"x" of descriptor "[I" (int array). -/
def c2cls : Class :=
  { bytes := [], magic := 0xCAFEBABE, minor_version := 0, major_version := 52,
    constant_pool_count := 7,
    constant_pool := ⟨7, [.unusedZero, .classref 6, .utf8 "x", .utf8 "[I",
      .utf8 "y", .utf8 "I", .utf8 "B"]⟩,
    access_flags := 0, this_class := 1, super_class := 0,
    interfaces_count := 0, interfaces := [],
    fields_count := 2,
    fields := [⟨0, 4, 5, 0, []⟩, ⟨0, 2, 3, 0, []⟩],
    methods_count := 0, methods := [],
    attributes_count := 0, attributes := [] }

/-- The value `instantiate` gives the array field "x": a reference to a
fresh empty `JvmArray`, not the `Null` reference. -/
def c2arrayValue : JvmValue :=
  .reference (.array (.primitive .int) 0) (.array ⟨0⟩) 0

/-- C2: instantiating `c2cls` zero-fills the primitive field "y" as the
claim says, but sets the array field "x" to an empty-array reference whose
target is not `Null`; and a non-array reference descriptor does not
default to `Null` either — it raises the `NotImplemented` fatal error. -/
theorem c2_default_values :
    (newObject (fun _ => none) 1 c2cls).map
        (fun o => (o.get_field "y", o.get_field "x")) =
      .ok (some (JvmValue.primitive .int 0 0 0), some c2arrayValue) ∧
    c2arrayValue.isNullRef = false ∧
    c2arrayValue.isArrayRef = true ∧
    create_null_value.isNullRef = true ∧
    defaultFieldValue 0 (JvmType.fromChars "Ljava/lang/String;".data) =
      .error (.notImplemented "Getting a reference type field other than an array.") :=
  ⟨rfl, rfl, rfl, rfl, rfl⟩

/-! C3.  `instantiate` builds the superclass layer chain but returns
before creating a layer for `java/lang/Object` ("Not making the base class
java/lang/Object"), so `is_type_of` never sees the root's name. -/

/-- A class "B" whose superclass is `java/lang/Object`. -/
def c3clsB : Class :=
  { bytes := [], magic := 0xCAFEBABE, minor_version := 0, major_version := 52,
    constant_pool_count := 5,
    constant_pool := ⟨5, [.unusedZero, .classref 2, .utf8 "B", .classref 4,
      .utf8 "java/lang/Object"]⟩,
    access_flags := 0, this_class := 1, super_class := 3,
    interfaces_count := 0, interfaces := [],
    fields_count := 0, fields := [],
    methods_count := 0, methods := [],
    attributes_count := 0, attributes := [] }

/-- A class "A" whose superclass is "B". -/
def c3clsA : Class :=
  { bytes := [], magic := 0xCAFEBABE, minor_version := 0, major_version := 52,
    constant_pool_count := 5,
    constant_pool := ⟨5, [.unusedZero, .classref 2, .utf8 "A", .classref 4,
      .utf8 "B"]⟩,
    access_flags := 0, this_class := 1, super_class := 3,
    interfaces_count := 0, interfaces := [],
    fields_count := 0, fields := [],
    methods_count := 0, methods := [],
    attributes_count := 0, attributes := [] }

/-- C3: an instantiated "A" (whose chain is A -> B -> java/lang/Object in
the class hierarchy) answers `is_type_of` true for "A" and "B" but false
for "java/lang/Object": the instantiation stopped before building the
root's layer, although `java/lang/Object` is on the superclass chain. -/
theorem c3_object_not_in_chain :
    (newObject (fun n => if n = "B" then some c3clsB else none) 2 c3clsA).map
        (fun o => (o.is_type_of "A", o.is_type_of "B", o.is_type_of "java/lang/Object")) =
      .ok (some true, some true, some false) ∧
    c3clsB.resolve_superclass = some "java/lang/Object" :=
  ⟨rfl, rfl⟩

/-- A minimal well-formed class file with distinctive header values:
minor 1, major 52, empty constant pool (2 bytes), access_flags 33,
this_class 4, super_class 5, interfaces_count 0, and zero counts for
fields, methods and attributes. -/
def c6bytes : List Nat := [0xCA, 0xFE, 0xBA, 0xBE, 0, 1, 0, 52, 0, 1,
  0, 33, 0, 4, 0, 5, 0, 0, 0, 0, 0, 0, 0, 0]

/-- The class `parseClass c6bytes` produces. -/
def c6cls : Class :=
  { bytes := c6bytes, magic := 0xCAFEBABE, minor_version := 1, major_version := 52,
    constant_pool_count := 1, constant_pool := ⟨1, [.unusedZero]⟩,
    access_flags := 33, this_class := 4, super_class := 5,
    interfaces_count := 0, interfaces := [],
    fields_count := 0, fields := [],
    methods_count := 0, methods := [],
    attributes_count := 0, attributes := [] }

/-- C6 (witness): the header-layout theorem applied at a concrete parse. -/
theorem c6_witness :
    parseClass c6bytes = .ok c6cls ∧
      (c6cls.magic = be32 (c6bytes.getD 0 0) (c6bytes.getD 1 0) (c6bytes.getD 2 0)
          (c6bytes.getD 3 0) ∧
       c6cls.minor_version = be16 (c6bytes.getD 4 0) (c6bytes.getD 5 0) ∧
       c6cls.major_version = be16 (c6bytes.getD 6 0) (c6bytes.getD 7 0) ∧
       ∃ cp cplen, ConstantPool.fromBytes (c6bytes.drop 8) = .ok (cp, cplen) ∧
         c6cls.constant_pool = cp ∧
         c6cls.access_flags = be16 (c6bytes.getD (8 + cplen) 0) (c6bytes.getD (8 + cplen + 1) 0) ∧
         c6cls.this_class = be16 (c6bytes.getD (8 + cplen + 2) 0) (c6bytes.getD (8 + cplen + 3) 0) ∧
         c6cls.super_class = be16 (c6bytes.getD (8 + cplen + 4) 0) (c6bytes.getD (8 + cplen + 5) 0) ∧
         c6cls.interfaces_count = be16 (c6bytes.getD (8 + cplen + 6) 0) (c6bytes.getD (8 + cplen + 7) 0)) :=
  ⟨rfl, c6_header_layout c6bytes c6cls rfl⟩

end RustJvm
